import Mathlib

/-!
# Verification of the blog-generator agent's RAG / plugin / memory core

Shallow embedding of the TypeScript sources:
* `src/utils/vectorUtils.ts` (cosine similarity, top-K similarity search),
* `src/services/RAGService.ts` (ingestion, retrieval, filters, disk cache load),
* `src/services/MemoryService.ts` (session history with compaction),
* `src/services/PluginService.ts` (plugin selection and dispatch).

JavaScript `number`s are modelled as real numbers (`ℝ`): every check the code
performs (`=== 0` tests, `>=` comparisons) is exact on its floating-point
values, and no claim below depends on rounding.  JavaScript `Array.prototype.sort`
with a comparator is stable (ECMAScript 2019), so it is modelled by a stable
insertion sort on a key.  `Date` values are modelled as integers (epoch millis).
-/

namespace AgentSpec

/- ============================================================
   Generic model of JavaScript's stable `Array.prototype.sort`
   with comparator `(a, b) => key b - key a` (descending by key).
   ============================================================ -/

/-- Insert `x` into `l`, skipping over every element whose key is strictly
greater, so that `x` lands before all later elements of equal key: this is
exactly the order a stable descending sort gives. -/
def insertDescBy {α β : Type} [LinearOrder β] (key : α → β) (x : α) :
    List α → List α
  | [] => [x]
  | y :: ys =>
    if key x < key y then y :: insertDescBy key x ys else x :: y :: ys

/-- Stable descending sort by `key`: model of `arr.sort((a, b) => key b - key a)`. -/
def sortDescBy {α β : Type} [LinearOrder β] (key : α → β) : List α → List α
  | [] => []
  | x :: xs => insertDescBy key x (sortDescBy key xs)

theorem insertDescBy_perm {α β : Type} [LinearOrder β] (key : α → β) (x : α)
    (l : List α) : (insertDescBy key x l).Perm (x :: l) := by
  induction l with
  | nil => simp [insertDescBy]
  | cons y ys ih =>
    simp only [insertDescBy]
    by_cases h : key x < key y
    · simp only [if_pos h]
      exact ((ih.cons y).trans (List.Perm.swap x y ys))
    · simp only [if_neg h]
      exact List.Perm.refl _

theorem sortDescBy_perm {α β : Type} [LinearOrder β] (key : α → β)
    (l : List α) : (sortDescBy key l).Perm l := by
  induction l with
  | nil => simp [sortDescBy]
  | cons x xs ih =>
    exact (insertDescBy_perm key x (sortDescBy key xs)).trans (ih.cons x)

theorem mem_insertDescBy {α β : Type} [LinearOrder β] (key : α → β) (x a : α)
    (l : List α) : a ∈ insertDescBy key x l ↔ a = x ∨ a ∈ l := by
  constructor
  · intro h
    have := (insertDescBy_perm key x l).mem_iff.mp h
    simpa using this
  · intro h
    exact (insertDescBy_perm key x l).mem_iff.mpr (by simpa using h)

theorem insertDescBy_pairwise {α β : Type} [LinearOrder β] (key : α → β)
    (x : α) (l : List α)
    (hl : l.Pairwise (fun a b => key b ≤ key a)) :
    (insertDescBy key x l).Pairwise (fun a b => key b ≤ key a) := by
  induction l with
  | nil => simp [insertDescBy]
  | cons y ys ih =>
    rcases List.pairwise_cons.mp hl with ⟨hy, hys⟩
    simp only [insertDescBy]
    by_cases h : key x < key y
    · simp only [if_pos h]
      refine List.pairwise_cons.mpr ⟨?_, ih hys⟩
      intro a ha
      rcases (mem_insertDescBy key x a ys).mp ha with rfl | ha
      · exact le_of_lt h
      · exact hy a ha
    · simp only [if_neg h]
      refine List.pairwise_cons.mpr ⟨?_, hl⟩
      intro a ha
      rcases List.mem_cons.mp ha with rfl | ha
      · exact le_of_not_lt h
      · exact le_trans (hy a ha) (le_of_not_lt h)

theorem sortDescBy_pairwise {α β : Type} [LinearOrder β] (key : α → β)
    (l : List α) :
    (sortDescBy key l).Pairwise (fun a b => key b ≤ key a) := by
  induction l with
  | nil => simp [sortDescBy]
  | cons x xs ih => exact insertDescBy_pairwise key x _ ih

/-- Stability of the insertion step: the elements of any one key class keep
their relative order.  Inserting an element of key `s` puts it in front of all
previously present elements of key `s`. -/
theorem filter_insertDescBy_eq {α β : Type} [LinearOrder β] (key : α → β)
    (x : α) (l : List α) (s : β) (hx : key x = s) :
    (insertDescBy key x l).filter (fun a => key a = s) =
      x :: l.filter (fun a => key a = s) := by
  induction l with
  | nil => simp [insertDescBy, List.filter, hx]
  | cons y ys ih =>
    simp only [insertDescBy]
    by_cases h : key x < key y
    · have hy : ¬ (key y = s) := by
        intro hys
        rw [hx] at h
        rw [hys] at h
        exact lt_irrefl s h
      simp only [if_pos h, List.filter_cons]
      simp only [decide_eq_true_eq]
      rw [if_neg hy]
      rw [ih]
      simp [List.filter_cons, hy]
    · simp only [if_neg h, List.filter_cons, decide_eq_true_eq, if_pos hx]

theorem filter_insertDescBy_ne {α β : Type} [LinearOrder β] (key : α → β)
    (x : α) (l : List α) (s : β) (hx : ¬ (key x = s)) :
    (insertDescBy key x l).filter (fun a => key a = s) =
      l.filter (fun a => key a = s) := by
  induction l with
  | nil => simp [insertDescBy, List.filter, hx]
  | cons y ys ih =>
    simp only [insertDescBy]
    by_cases h : key x < key y
    · simp only [if_pos h, List.filter_cons]
      rw [ih]
    · simp only [if_neg h, List.filter_cons, decide_eq_true_eq, if_neg hx]

/-- Stability of the sort: for every key value `s`, the subsequence of
elements with key `s` is unchanged (same elements, same order). -/
theorem filter_sortDescBy {α β : Type} [LinearOrder β] (key : α → β)
    (l : List α) (s : β) :
    (sortDescBy key l).filter (fun a => key a = s) =
      l.filter (fun a => key a = s) := by
  induction l with
  | nil => simp [sortDescBy]
  | cons x xs ih =>
    simp only [sortDescBy]
    by_cases hx : key x = s
    · rw [filter_insertDescBy_eq key x _ s hx, ih, List.filter_cons,
        if_pos (by simpa using hx)]
    · rw [filter_insertDescBy_ne key x _ s hx, ih, List.filter_cons,
        if_neg (by simpa using hx)]

/- ============================================================
   Data model (src/types/rag.ts)
   ============================================================ -/

/-- `Vector` of `src/types/rag.ts`: the raw values plus their declared
dimensionality.  (Named `EmbVector` because `Vector` is taken by Mathlib.) -/
structure EmbVector where
  values : List ℝ
  dimensions : ℕ

/-- `EmbeddedChunk.source` of `src/types/rag.ts`.  The optional `section`
field is called `sectionLabel` here (`section` is a Lean keyword). -/
structure ChunkSource where
  filename : String
  start_position : ℕ
  srcLength : ℕ
  sectionLabel : Option String

/-- `EmbeddedChunk` of `src/types/rag.ts`; `created_at` is the
`metadata.created_at` timestamp, modelled as epoch milliseconds. -/
structure EmbeddedChunk where
  id : String
  text : String
  embedding : EmbVector
  source : ChunkSource
  created_at : ℤ

/-- `SimilarityResult` of `src/types/rag.ts`. -/
structure SimilarityResult where
  chunk : EmbeddedChunk
  similarity_score : ℝ
  rank : ℕ

/- ============================================================
   Vector math (src/utils/vectorUtils.ts)
   ============================================================ -/

/-- The `dotProduct` accumulation loop of `cosineSimilarity`. -/
def dotProduct (a b : List ℝ) : ℝ := (List.zipWith (fun x y => x * y) a b).sum

/-- The magnitude accumulation loop of `cosineSimilarity`, before `Math.sqrt`. -/
def sumOfSquares (v : List ℝ) : ℝ := (v.map (fun x => x * x)).sum

/-- `cosineSimilarity(vectorA, vectorB)` from `src/utils/vectorUtils.ts`.
Thrown `Error`s are modelled as `Except.error` of the message.  (The
`!vectorA || !vectorB` null check cannot fire in a typed embedding.) -/
noncomputable def cosineSimilarity (vectorA vectorB : List ℝ) :
    Except String ℝ :=
  if vectorA.length ≠ vectorB.length then
    .error "Vectors must have the same dimensions"
  else if vectorA.length = 0 then
    .error "Vectors cannot be empty"
  else
    let dotP := dotProduct vectorA vectorB
    let magnitudeA := Real.sqrt (sumOfSquares vectorA)
    let magnitudeB := Real.sqrt (sumOfSquares vectorB)
    if magnitudeA = 0 ∨ magnitudeB = 0 then .ok 0
    else .ok (dotP / (magnitudeA * magnitudeB))

/-- The pure value `cosineSimilarity` returns in its non-error branches. -/
noncomputable def cosValue (a b : List ℝ) : ℝ :=
  if Real.sqrt (sumOfSquares a) = 0 ∨ Real.sqrt (sumOfSquares b) = 0 then 0
  else dotProduct a b / (Real.sqrt (sumOfSquares a) * Real.sqrt (sumOfSquares b))

/-- The `for (const chunk of chunks)` loop of `findSimilarChunks`: compute the
similarity of each chunk, keep those `>= minSimilarity` (rank still 0), and —
per the `try/catch` in the source — skip a chunk whose `cosineSimilarity`
throws, continuing with the rest. -/
noncomputable def computeSimilarities (queryVector : List ℝ)
    (minSimilarity : ℝ) : List EmbeddedChunk → List SimilarityResult
  | [] => []
  | chunk :: rest =>
    match cosineSimilarity queryVector chunk.embedding.values with
    | .ok similarity =>
      if minSimilarity ≤ similarity then
        { chunk := chunk, similarity_score := similarity, rank := 0 } ::
          computeSimilarities queryVector minSimilarity rest
      else computeSimilarities queryVector minSimilarity rest
    | .error _ => computeSimilarities queryVector minSimilarity rest

/-- The rank-assignment loop of `findSimilarChunks`:
`topResults[i].rank = i + 1`. -/
def setRanksFrom : ℕ → List SimilarityResult → List SimilarityResult
  | _, [] => []
  | i, r :: rs => { r with rank := i + 1 } :: setRanksFrom (i + 1) rs

def setRanks (results : List SimilarityResult) : List SimilarityResult :=
  setRanksFrom 0 results

/-- `findSimilarChunks(queryVector, chunks, topK, minSimilarity)` from
`src/utils/vectorUtils.ts`.  `topK` is an integer so that the `topK <= 0`
guard is meaningful; `sort((a, b) => b.similarity_score - a.similarity_score)`
is the stable descending sort and `slice(0, topK)` is `take` for positive
`topK`. -/
noncomputable def findSimilarChunks (queryVector : List ℝ)
    (chunks : List EmbeddedChunk) (topK : ℤ) (minSimilarity : ℝ) :
    Except String (List SimilarityResult) :=
  if queryVector.length = 0 then .error "Query vector cannot be empty"
  else if chunks.length = 0 then .ok []
  else if topK ≤ 0 then .error "topK must be greater than 0"
  else
    .ok (setRanks
      ((sortDescBy (fun r => r.similarity_score)
        (computeSimilarities queryVector minSimilarity chunks)).take topK.toNat))

/- ============================================================
   RAG service (src/services/RAGService.ts)
   ============================================================ -/

/-- A text chunk as produced by `chunkText` of `src/utils/textUtils.ts`
(the fields `RAGService.processDocument` reads from it). -/
structure Chunk where
  id : String
  text : String
  startPosition : ℕ
  chunkLen : ℕ
  sectionLabel : Option String

/-- The `processing` sub-record of `KnowledgeDocument`. -/
structure DocProcessing where
  chunked : Bool
  embedded : Bool
  chunk_count : ℕ

/-- `KnowledgeDocument` of `src/types/rag.ts` (metadata flattened;
timestamps as epoch millis; `type` is called `docType`). -/
structure KnowledgeDocument where
  id : String
  filename : String
  title : String
  content : String
  docType : String
  created_at : ℤ
  updated_at : ℤ
  file_size : ℕ
  tags : List String
  processing : DocProcessing

/-- Model of a JavaScript `Map` as an insertion-ordered association list;
`set` overwrites in place when the key exists, else appends. -/
def mapSet {β : Type} : List (String × β) → String → β → List (String × β)
  | [], k, v => [(k, v)]
  | (k', v') :: rest, k, v =>
    if k' = k then (k, v) :: rest else (k', v') :: mapSet rest k v

/-- `Map.get`. -/
def mapGet {β : Type} : List (String × β) → String → Option β
  | [], _ => none
  | (k', v') :: rest, k => if k' = k then some v' else mapGet rest k

/-- The in-memory state of `RAGService`: `embeddedChunks`, `documentsIndex`,
`isInitialized`. -/
structure RAGState where
  embeddedChunks : List EmbeddedChunk
  documentsIndex : List (String × KnowledgeDocument)
  isInitDone : Bool

/-- The collaborators `processDocument` calls whose code is outside
`RAGService.ts`: the text utilities of `src/utils/textUtils.ts` (not present
under `src/`) and the embedding client (`LLMService.generateEmbeddings`, a
remote call).  They are parameters: the ingestion bookkeeping proved below
holds for every choice of them. -/
structure IngestEnv where
  cleanText : String → String
  stripMarkdown : String → String
  chunkText : String → String → List Chunk
  extractTitle : String → Option String
  extractKeyTerms : String → ℕ → List String
  generateEmbeddings : List String → Except String (List (List ℝ))

/-- `generateDocumentId`: `filename.replace(/[^a-zA-Z0-9]/g, '_').toLowerCase()`. -/
def generateDocumentId (filename : String) : String :=
  String.map (fun c => if c.isAlphanum then c.toLower else '_') filename

/-- `detectDocumentType`: switch on `filename.split('.').pop()?.toLowerCase()`. -/
def detectDocumentType (filename : String) : String :=
  match ((filename.splitOn ".").getLast?).map String.toLower with
  | some "md" => "markdown"
  | some "markdown" => "markdown"
  | some "html" => "html"
  | some "htm" => "html"
  | some "pdf" => "pdf"
  | _ => "text"

/-- `RAGService.processDocument(filename, content, metadata)`.  `now` stands
for `new Date()`.  Note the chunk-storage step: the freshly embedded chunks
are pushed onto `this.embeddedChunks` (appended), and only the
`documentsIndex` map entry for `filename` is overwritten. -/
def processDocument (env : IngestEnv) (now : ℤ) (filename content : String)
    (st : RAGState) : Except String RAGState :=
  let cleanedContent := env.cleanText content
  let strippedContent := env.stripMarkdown cleanedContent
  let chunks := env.chunkText strippedContent filename
  let document : KnowledgeDocument :=
    { id := generateDocumentId filename
      filename := filename
      title := (env.extractTitle content).getD filename
      content := cleanedContent
      docType := detectDocumentType filename
      created_at := now
      updated_at := now
      file_size := content.length
      tags := env.extractKeyTerms strippedContent 5
      processing :=
        { chunked := true, embedded := true, chunk_count := chunks.length } }
  match env.generateEmbeddings (chunks.map (fun c => c.text)) with
  | .error e => .error e
  | .ok embeddings =>
    if embeddings.length < chunks.length then
      -- `embeddings[i]` is `undefined` past the end; `embedding.length` throws
      .error "Cannot read properties of undefined"
    else
      let newChunks := (chunks.zip embeddings).map (fun ce =>
        ({ id := ce.1.id
           text := ce.1.text
           embedding := { values := ce.2, dimensions := ce.2.length }
           source :=
             { filename := filename
               start_position := ce.1.startPosition
               srcLength := ce.1.chunkLen
               sectionLabel := ce.1.sectionLabel }
           created_at := now } : EmbeddedChunk))
      .ok { st with
        embeddedChunks := st.embeddedChunks ++ newChunks
        documentsIndex := mapSet st.documentsIndex filename document }

/-- `RAGService.processDocuments`: each document is processed in turn; a
document whose processing throws is logged and skipped (state unchanged for
it), the batch continues. -/
def processDocuments (env : IngestEnv) (now : ℤ)
    (documents : List (String × String)) (st : RAGState) : RAGState :=
  documents.foldl (fun s doc =>
    match processDocument env now doc.1 doc.2 s with
    | .ok s' => s'
    | .error _ => s) st

/-- Number of chunks the index currently holds for a filename. -/
def chunkCountFor (st : RAGState) (filename : String) : ℕ :=
  (st.embeddedChunks.filter (fun c => c.source.filename == filename)).length

/-- The `filters` argument of `retrieveContent` / `applyFilters`:
optional filename set, section set, and date range (start, end). -/
structure SearchFilters where
  filenames : Option (List String)
  sections : Option (List String)
  date_range : Option (Option ℤ × Option ℤ)

/-- The predicate the `chunks.filter(...)` callback of
`RAGService.applyFilters` computes for one result. -/
def passesFilters (filters : SearchFilters) (result : SimilarityResult) :
    Bool :=
  (match filters.filenames with
   | some filenames =>
     if 0 < filenames.length then
       filenames.contains result.chunk.source.filename
     else true
   | none => true)
  && (match filters.sections with
   | some sections =>
     if 0 < sections.length then
       match result.chunk.source.sectionLabel with
       | some s => sections.contains s
       | none => false
     else true
   | none => true)
  && (match filters.date_range with
   | some range =>
     (match range.1 with
      | some startD => decide (startD ≤ result.chunk.created_at)
      | none => true)
     && (match range.2 with
      | some endD => decide (result.chunk.created_at ≤ endD)
      | none => true)
   | none => true)

/-- `RAGService.applyFilters(chunks, filters?)`. -/
def applyFilters (chunks : List SimilarityResult)
    (filters : Option SearchFilters) : List SimilarityResult :=
  match filters with
  | none => chunks
  | some fs => chunks.filter (passesFilters fs)

/-- `validateVector(embedding)` of `src/utils/vectorUtils.ts` as used on the
query embedding (the per-element `NaN` check is vacuous over `ℝ`). -/
def validateVector (vector : List ℝ) : Except String Unit :=
  if vector.length = 0 then .error "Vector cannot be empty" else .ok ()

/-- JavaScript `a || b` on numbers: `0` is falsy, so a supplied
`min_similarity_score` of `0` falls back to the configured default. -/
noncomputable def jsOrReal (v : Option ℝ) (dflt : ℝ) : ℝ :=
  match v with
  | none => dflt
  | some x => if x = 0 then dflt else x

/-- `RAGService.retrieveContent(context)`, restricted to the data it returns
in `retrieved_chunks`.  `queryEmbeddingRes` is the embedding client's answer
for the cleaned query (`generateEmbeddings([cleanedQuery])`). -/
noncomputable def retrieveContent (configMinScore : ℝ) (st : RAGState)
    (queryEmbeddingRes : Except String (List (List ℝ)))
    (top_k : ℤ) (min_similarity_score : Option ℝ)
    (filters : Option SearchFilters) : Except String (List SimilarityResult) :=
  if st.isInitDone = false then
    .error "RAG Service not initialized. Call initialize() first."
  else
    match queryEmbeddingRes with
    | .error e => .error e
    | .ok embeddings =>
      match embeddings.head? with
      | none => .error "No embedding generated for query"
      | some queryEmbedding =>
        match validateVector queryEmbedding with
        | .error e => .error e
        | .ok _ =>
          match findSimilarChunks queryEmbedding st.embeddedChunks top_k
              (jsOrReal min_similarity_score configMinScore) with
          | .error e => .error e
          | .ok similarChunks => .ok (applyFilters similarChunks filters)

/-- State of one on-disk cache file as `loadExistingData` can encounter it:
absent, present but failing to parse/revive, or present with good data. -/
inductive CacheFile (α : Type) where
  | missing : CacheFile α
  | malformed : CacheFile α
  | valid : α → CacheFile α

/-- The two cache files `chunks.json` and `documents.json`. -/
structure DiskCache where
  chunksFile : CacheFile (List EmbeddedChunk)
  documentsFile : CacheFile (List KnowledgeDocument)

/-- Result of a load: the new state plus the warnings logged. -/
structure LoadOutcome where
  state : RAGState
  warnings : List String

/-- `RAGService.loadExistingData`: each file is read inside its own
`try/catch`; a missing file is skipped, a malformed one degrades to the
empty collection with a `logger.warn`.  The function is total: no branch
re-throws, so startup is never aborted by the cache. -/
def loadExistingData (disk : DiskCache) (st : RAGState) : LoadOutcome :=
  let chunksStep :
      List EmbeddedChunk × List String :=
    match disk.chunksFile with
    | .missing => (st.embeddedChunks, [])
    | .malformed => ([], ["Failed to load cached chunks"])
    | .valid cs => (cs, [])
  let documentsStep :
      List (String × KnowledgeDocument) × List String :=
    match disk.documentsFile with
    | .missing => (st.documentsIndex, [])
    | .malformed => ([], ["Failed to load cached documents"])
    | .valid ds => (ds.map (fun d => (d.filename, d)), [])
  { state :=
      { embeddedChunks := chunksStep.1
        documentsIndex := documentsStep.1
        isInitDone := st.isInitDone }
    warnings := chunksStep.2 ++ documentsStep.2 }

/-- The state `RAGService` starts with before `initialize()`:
empty index, not yet initialized. -/
def freshRAGState : RAGState :=
  { embeddedChunks := [], documentsIndex := [], isInitDone := false }

/-- `RAGService.initialize()`: `loadExistingData` (which is total — every
read in it sits inside a `try/catch`) followed by
`this.isInitialized = true`; the surrounding catch-and-rethrow is therefore
unreachable and startup always completes. -/
def initService (disk : DiskCache) : RAGState :=
  { (loadExistingData disk freshRAGState).state with isInitDone := true }

/- ============================================================
   Memory service (src/services/MemoryService.ts)
   ============================================================ -/

/-- Configuration fields of `MemoryService` used by `addMessage` /
`manageSessionSize`. -/
structure MemoryServiceConfig where
  maxMessagesPerSession : ℕ
  summaryThreshold : ℕ

inductive Role where
  | user : Role
  | assistant : Role
  | system : Role
deriving DecidableEq, BEq

structure ConversationMessage where
  id : String
  role : Role
  content : String
  timestamp : ℤ

structure ConversationSummary where
  session_id : String
  summary : String
  message_count : ℕ
  topics : List String
  last_message_at : ℤ

/-- One `ConversationSession` (its `session_id` is the map key). -/
structure SessionState where
  messages : List ConversationMessage
  created_at : ℤ
  updated_at : ℤ

/-- The two maps `MemoryService` keeps: `sessions` and `sessionSummaries`. -/
structure MemoryState where
  sessions : List (String × SessionState)
  sessionSummaries : List (String × ConversationSummary)

/-- JavaScript `arr.slice(0, -t)` for a non-negative `t` (note
`-0 === 0`, so `t = 0` gives `slice(0, 0) = []`). -/
def sliceToNeg {α : Type} (l : List α) (t : ℕ) : List α :=
  if t = 0 then [] else l.take (l.length - t)

/-- JavaScript `arr.slice(-t)` for a non-negative `t` (for `t = 0` this is
`slice(0)`, the whole array). -/
def sliceFromNeg {α : Type} (l : List α) (t : ℕ) : List α :=
  if t = 0 then l else l.drop (l.length - t)

/-- `MemoryService.createSimpleSummary`. -/
def createSimpleSummary (messages : List ConversationMessage) : String :=
  if messages.length = 0 then "No previous conversation."
  else
    let userMessages := (messages.filter (fun m => m.role == Role.user)).length
    let assistantMessages :=
      (messages.filter (fun m => m.role == Role.assistant)).length
    "Previous conversation included " ++ toString userMessages ++
      " user messages and " ++ toString assistantMessages ++
      " assistant responses covering various topics."

/-- `MemoryService.extractTopics`: over the user turns, lowercase, replace
non-word characters (JS `\w` is `[A-Za-z0-9_]`) by spaces, split on
whitespace, keep words longer than 3 characters, dedupe in first-seen order
(a JS `Set` iterates in insertion order), take 5. -/
def extractTopics (messages : List ConversationMessage) : List String :=
  let words :=
    (messages.filter (fun m => m.role == Role.user)).flatMap (fun m =>
      (((m.content.toLower.map (fun c =>
          if c.isAlphanum || c = '_' then c else ' ')).split
            (fun c => c.isWhitespace)).filter (fun w => 3 < w.length)))
  (words.eraseDups).take 5

/-- `MemoryService.updateSessionSummary(sessionId, summary, topics)`:
no-op (with a warning) when the session does not exist. -/
def updateSessionSummary (mem : MemoryState) (sessionId summary : String)
    (topics : List String) : MemoryState :=
  match mapGet mem.sessions sessionId with
  | none => mem
  | some session =>
    { mem with
      sessionSummaries := mapSet mem.sessionSummaries sessionId
        { session_id := sessionId
          summary := summary
          message_count := session.messages.length
          topics := topics
          last_message_at := session.updated_at } }

/-- `MemoryService.manageSessionSize(session)`.  The returned `Bool` is
instrumentation for the proofs: `true` exactly when the compaction branch
ran. -/
def manageSessionSize (cfg : MemoryServiceConfig) (mem : MemoryState)
    (sessionId : String) : MemoryState × Bool :=
  match mapGet mem.sessions sessionId with
  | none => (mem, false)
  | some session =>
    if cfg.maxMessagesPerSession < session.messages.length then
      let messagesToSummarize := sliceToNeg session.messages cfg.summaryThreshold
      let summary := createSimpleSummary messagesToSummarize
      let topics := extractTopics messagesToSummarize
      let mem1 := updateSessionSummary mem sessionId summary topics
      let newMessages := sliceFromNeg session.messages cfg.summaryThreshold
      ({ mem1 with
          sessions := mapSet mem1.sessions sessionId
            { session with messages := newMessages } }, true)
    else (mem, false)

/-- `MemoryService.addMessage(sessionId, role, content, metadata?)`.
`msgId` stands for `generateMessageId()` and `now` for `new Date()`.
Returns the new state plus whether this add compacted the session. -/
def addMessage (cfg : MemoryServiceConfig) (mem : MemoryState)
    (sessionId msgId : String) (role : Role) (content : String) (now : ℤ) :
    MemoryState × Bool :=
  let message : ConversationMessage :=
    { id := msgId, role := role, content := content, timestamp := now }
  let sessionAndState : SessionState × MemoryState :=
    match mapGet mem.sessions sessionId with
    | some s => (s, mem)
    | none =>
      let s : SessionState := { messages := [], created_at := now, updated_at := now }
      (s, { mem with sessions := mapSet mem.sessions sessionId s })
  let session := sessionAndState.1
  let mem0 := sessionAndState.2
  let sessionU :=
    { session with messages := session.messages ++ [message], updated_at := now }
  let mem1 := { mem0 with sessions := mapSet mem0.sessions sessionId sessionU }
  manageSessionSize cfg mem1 sessionId

/-- Adding a batch of messages one `addMessage` call at a time, counting how
many of the calls compacted the session. -/
def addMessages (cfg : MemoryServiceConfig) (mem : MemoryState)
    (sessionId : String) :
    List (String × Role × String × ℤ) → MemoryState × ℕ
  | [] => (mem, 0)
  | m :: rest =>
    let step := addMessage cfg mem sessionId m.1 m.2.1 m.2.2.1 m.2.2.2
    let restOut := addMessages cfg step.1 sessionId rest
    (restOut.1, (if step.2 then 1 else 0) + restOut.2)

/- ============================================================
   Plugin service (src/services/PluginService.ts)
   ============================================================ -/

structure PluginError where
  code : String
  message : String

/-- `PluginResult` of `src/types/plugin.ts` (the fields `PluginService`
constructs; `data` flattened to an optional payload tag). -/
structure PluginResult where
  success : Bool
  data : Option String
  message : String
  error : Option PluginError
  execution_time_ms : ℕ
  plugin_version : String

/-- How one `plugin.execute(input, context)` call behaves relative to the
per-plugin timeout race: it settles with a result before the timeout fires,
it rejects before the timeout fires, or it is still pending when the timeout
fires (so the race is won by the timeout rejection). -/
inductive ExecBehavior where
  | completes : PluginResult → ExecBehavior
  | throwsErr : String → ExecBehavior
  | timesOut : ExecBehavior

/-- A registered plugin, with its activation and execution behaviour for the
one input under consideration (both are opaque handler code behind the
dispatcher's boundary): `shouldActivateRes` is `shouldActivate`'s returned
Boolean or its thrown error. -/
structure PluginM where
  name : String
  version : String
  priority : ℤ
  enabled : Bool
  shouldActivateRes : Except String Bool
  execBehavior : ExecBehavior

/-- The selection loop of `PluginService.findActivatedPlugins`: skip disabled
plugins; keep those whose `shouldActivate` returns `true`; a plugin whose
activation check throws is logged and skipped.  The input list is in
registration order (`Map.values()` iterates in insertion order). -/
def activationLoop : List PluginM → List PluginM
  | [] => []
  | p :: ps =>
    if p.enabled = false then activationLoop ps
    else
      match p.shouldActivateRes with
      | .ok true => p :: activationLoop ps
      | .ok false => activationLoop ps
      | .error _ => activationLoop ps

/-- `PluginService.findActivatedPlugins`: activation loop, then
`sort((a, b) => b.priority - a.priority)` (stable), then
`slice(0, max_plugins_per_request)`. -/
def findActivatedPlugins (maxPluginsPerRequest : ℕ)
    (plugins : List PluginM) : List PluginM :=
  (sortDescBy (fun p => p.priority) (activationLoop plugins)).take
    maxPluginsPerRequest

/-- `Promise.race([plugin.execute(...), createTimeoutPromise(plugin.name)])`:
the timeout branch rejects with the message built in
`createTimeoutPromise`. -/
def raceWithTimeout (timeoutMs : ℕ) (p : PluginM) :
    Except String PluginResult :=
  match p.execBehavior with
  | .completes r => .ok r
  | .throwsErr msg => .error msg
  | .timesOut =>
    .error ("Plugin " ++ p.name ++ " execution timed out after " ++
      toString timeoutMs ++ "ms")

/-- The failure result the `catch` block of `executePluginsSequential`
builds — for every caught rejection, timeout included. -/
def executionFailureResult (p : PluginM) : PluginResult :=
  { success := false
    data := none
    message := "Plugin execution failed"
    error := some { code := "EXECUTION_ERROR", message := "Plugin execution failed" }
    execution_time_ms := 0
    plugin_version := p.version }

/-- `PluginService.executePluginsSequential`: every plugin gets exactly one
entry in the result list — its own result when the race resolves, the
synthetic failure result when anything is caught. -/
def executePluginsSequential (timeoutMs : ℕ) (plugins : List PluginM) :
    List (String × PluginResult) :=
  plugins.map (fun p =>
    match raceWithTimeout timeoutMs p with
    | .ok result => (p.name, result)
    | .error _ => (p.name, executionFailureResult p))

/- ============================================================
   Facts about the vector math
   ============================================================ -/

theorem sumOfSquares_nonneg (v : List ℝ) : 0 ≤ sumOfSquares v := by
  induction v with
  | nil => simp [sumOfSquares]
  | cons x xs ih =>
    simp only [sumOfSquares, List.map_cons, List.sum_cons]
    have hx : 0 ≤ x * x := mul_self_nonneg x
    have : (0 : ℝ) ≤ (xs.map (fun x => x * x)).sum := ih
    linarith

theorem sumOfSquares_eq_zero_iff (v : List ℝ) :
    sumOfSquares v = 0 ↔ ∀ x ∈ v, x = 0 := by
  induction v with
  | nil => simp [sumOfSquares]
  | cons x xs ih =>
    simp only [sumOfSquares, List.map_cons, List.sum_cons, List.mem_cons]
    constructor
    · intro h
      have hx : 0 ≤ x * x := mul_self_nonneg x
      have hxs : 0 ≤ sumOfSquares xs := sumOfSquares_nonneg xs
      have hxz : x * x = 0 := by
        simp only [sumOfSquares] at hxs
        linarith
      have hsz : sumOfSquares xs = 0 := by
        simp only [sumOfSquares] at hxs ⊢
        linarith
      intro y hy
      rcases hy with rfl | hy
      · exact mul_self_eq_zero.mp hxz
      · exact (ih.mp hsz) y hy
    · intro h
      have hx : x = 0 := h x (Or.inl rfl)
      have hxs : sumOfSquares xs = 0 := ih.mpr (fun y hy => h y (Or.inr hy))
      simp only [sumOfSquares] at hxs
      rw [hx, hxs]
      ring

theorem sqrt_sumOfSquares_eq_zero_iff (v : List ℝ) :
    Real.sqrt (sumOfSquares v) = 0 ↔ ∀ x ∈ v, x = 0 := by
  rw [Real.sqrt_eq_zero (sumOfSquares_nonneg v)]
  exact sumOfSquares_eq_zero_iff v

/-- C5: `cosineSimilarity` fails with the dimension-mismatch error when the
lengths differ, fails with the empty-vector error when the (equal) length is
zero, returns exactly `0` when either vector has zero norm (equivalently, is
the zero vector), and otherwise returns the dot product divided by the
product of the norms. -/
theorem cosineSimilarity_spec (a b : List ℝ) :
    (a.length ≠ b.length →
      cosineSimilarity a b = .error "Vectors must have the same dimensions") ∧
    (a.length = b.length → a = [] →
      cosineSimilarity a b = .error "Vectors cannot be empty") ∧
    (a.length = b.length → a ≠ [] →
      ((∀ x ∈ a, x = 0) ∨ (∀ x ∈ b, x = 0)) →
      cosineSimilarity a b = .ok 0) ∧
    (a.length = b.length → a ≠ [] →
      ¬ (∀ x ∈ a, x = 0) → ¬ (∀ x ∈ b, x = 0) →
      cosineSimilarity a b =
        .ok (dotProduct a b /
          (Real.sqrt (sumOfSquares a) * Real.sqrt (sumOfSquares b)))) := by
  refine ⟨?_, ?_, ?_, ?_⟩
  · intro h
    simp only [cosineSimilarity, if_pos h]
  · intro h hnil
    subst hnil
    have hb : b = [] := by simpa using h.symm
    subst hb
    simp [cosineSimilarity]
  · intro h hne hz
    have hz' : Real.sqrt (sumOfSquares a) = 0 ∨ Real.sqrt (sumOfSquares b) = 0 := by
      rcases hz with hz | hz
      · exact Or.inl ((sqrt_sumOfSquares_eq_zero_iff a).mpr hz)
      · exact Or.inr ((sqrt_sumOfSquares_eq_zero_iff b).mpr hz)
    have hlen : ¬ (a.length ≠ b.length) := by simp [h]
    have hlen0 : ¬ (a.length = 0) := by
      simpa [List.length_eq_zero] using hne
    simp only [cosineSimilarity, if_neg hlen, if_neg hlen0, if_pos hz']
  · intro h hne hza hzb
    have hz' : ¬ (Real.sqrt (sumOfSquares a) = 0 ∨ Real.sqrt (sumOfSquares b) = 0) := by
      rintro (hz | hz)
      · exact hza ((sqrt_sumOfSquares_eq_zero_iff a).mp hz)
      · exact hzb ((sqrt_sumOfSquares_eq_zero_iff b).mp hz)
    have hlen : ¬ (a.length ≠ b.length) := by simp [h]
    have hlen0 : ¬ (a.length = 0) := by
      simpa [List.length_eq_zero] using hne
    simp only [cosineSimilarity, if_neg hlen, if_neg hlen0, if_neg hz']

/-- Helper for closed-form evaluation: `Real.sqrt` at a perfect square. -/
theorem sqrt_eval {x m : ℝ} (hm : 0 ≤ m) (h : x = m ^ 2) : Real.sqrt x = m := by
  rw [h]
  exact Real.sqrt_sq hm

/-- Witness for C5: the four branches at concrete inputs.  The non-zero
branch evaluates to an actual number: `cos([3,4],[3,4]) = 25 / (5·5) = 1`. -/
theorem cosineSimilarity_spec_witness :
    cosineSimilarity [1, 0] [1, 2, 3] =
      .error "Vectors must have the same dimensions" ∧
    cosineSimilarity ([] : List ℝ) [] = .error "Vectors cannot be empty" ∧
    cosineSimilarity [0, 0] [3, 4] = .ok 0 ∧
    cosineSimilarity [3, 4] [3, 4] = .ok 1 := by
  refine ⟨?_, ?_, ?_, ?_⟩
  · exact (cosineSimilarity_spec [1, 0] [1, 2, 3]).1 (by simp)
  · exact (cosineSimilarity_spec [] []).2.1 (by simp) rfl
  · exact (cosineSimilarity_spec [0, 0] [3, 4]).2.2.1 (by simp) (by simp)
      (Or.inl (by intro x hx; simpa using hx))
  · have h := (cosineSimilarity_spec [3, 4] [3, 4]).2.2.2 rfl (by simp)
      (by intro hall; simpa using hall 3 (by simp))
      (by intro hall; simpa using hall 3 (by simp))
    rw [h]
    have hs : Real.sqrt (sumOfSquares [3, 4]) = 5 :=
      sqrt_eval (by norm_num) (by simp [sumOfSquares]; norm_num)
    rw [hs]
    have hd : dotProduct [3, 4] [3, 4] = 25 := by
      simp [dotProduct]
      norm_num
    rw [hd]
    norm_num

/- ============================================================
   Shared evaluation helpers
   ============================================================ -/

theorem cosineSimilarity_mismatch (qv v : List ℝ) (h : qv.length ≠ v.length) :
    cosineSimilarity qv v = .error "Vectors must have the same dimensions" := by
  simp only [cosineSimilarity, if_pos h]

theorem cosineSimilarity_eq_ok (qv v : List ℝ) (hq : qv ≠ [])
    (h : v.length = qv.length) :
    cosineSimilarity qv v = .ok (cosValue qv v) := by
  have hq0 : ¬ (qv.length = 0) := by simpa [List.length_eq_zero] using hq
  have hlen : ¬ (qv.length ≠ v.length) := by simp [h]
  by_cases hz : Real.sqrt (sumOfSquares qv) = 0 ∨ Real.sqrt (sumOfSquares v) = 0
  · simp only [cosineSimilarity, cosValue, if_neg hlen, if_neg hq0, if_pos hz]
  · simp only [cosineSimilarity, cosValue, if_neg hlen, if_neg hq0, if_neg hz]

theorem cosValue_eval (q v : List ℝ) (mq mv s : ℝ)
    (hq : sumOfSquares q = mq ^ 2) (hv : sumOfSquares v = mv ^ 2)
    (hmq : 0 < mq) (hmv : 0 < mv)
    (hd : dotProduct q v = s * (mq * mv)) :
    cosValue q v = s := by
  have hsq : Real.sqrt (sumOfSquares q) = mq := sqrt_eval (le_of_lt hmq) hq
  have hsv : Real.sqrt (sumOfSquares v) = mv := sqrt_eval (le_of_lt hmv) hv
  have hne : ¬ (Real.sqrt (sumOfSquares q) = 0 ∨ Real.sqrt (sumOfSquares v) = 0) := by
    rw [hsq, hsv]
    push_neg
    exact ⟨ne_of_gt hmq, ne_of_gt hmv⟩
  rw [cosValue, if_neg hne, hsq, hsv, hd]
  exact mul_div_cancel_right₀ s (ne_of_gt (mul_pos hmq hmv))

theorem cosineSimilarity_eval (q v : List ℝ) (mq mv s : ℝ) (hqne : q ≠ [])
    (hlen : v.length = q.length)
    (hq : sumOfSquares q = mq ^ 2) (hv : sumOfSquares v = mv ^ 2)
    (hmq : 0 < mq) (hmv : 0 < mv) (hd : dotProduct q v = s * (mq * mv)) :
    cosineSimilarity q v = .ok s := by
  rw [cosineSimilarity_eq_ok q v hqne hlen,
    cosValue_eval q v mq mv s hq hv hmq hmv hd]

/-- Convenience constructor for concrete chunks used in witnesses. -/
def mkChunk (id filename : String) (values : List ℝ) (created : ℤ) :
    EmbeddedChunk :=
  { id := id
    text := id
    embedding := { values := values, dimensions := values.length }
    source :=
      { filename := filename, start_position := 0, srcLength := 0,
        sectionLabel := none }
    created_at := created }

/- ============================================================
   C10: order of the guard checks in findSimilarChunks
   ============================================================ -/

/-- C10: for an empty candidate list `findSimilarChunks` returns an empty
result for every `k`, including `k ≤ 0`: the empty-candidate early return
precedes the `topK <= 0` validation, so that configuration error is only
thrown when the candidate list is non-empty. -/
theorem findSimilarChunks_check_order (qv : List ℝ) (cs : List EmbeddedChunk)
    (k : ℤ) (minSim : ℝ) (hq : qv ≠ []) :
    findSimilarChunks qv [] k minSim = .ok [] ∧
    (cs ≠ [] → k ≤ 0 →
      findSimilarChunks qv cs k minSim =
        .error "topK must be greater than 0") := by
  have hq0 : ¬ (qv.length = 0) := by simpa [List.length_eq_zero] using hq
  constructor
  · simp [findSimilarChunks, hq0]
  · intro hcs hk
    have hcs0 : ¬ (cs.length = 0) := by simpa [List.length_eq_zero] using hcs
    simp [findSimilarChunks, hq0, hcs0, hk]

/-- Witness for C10 at `k = 0`. -/
theorem findSimilarChunks_check_order_witness :
    findSimilarChunks [1] [] 0 0 = .ok [] ∧
    findSimilarChunks [1] [mkChunk "c0" "doc.md" [1] 0] 0 0 =
      .error "topK must be greater than 0" := by
  have h := findSimilarChunks_check_order [1] [mkChunk "c0" "doc.md" [1] 0]
    0 0 (by simp)
  exact ⟨h.1, h.2 (by simp) (by norm_num)⟩

/- ============================================================
   C2: a dimension mismatch on a stored chunk is skipped, not fatal
   ============================================================ -/

/-- The similarity loop only ever keeps chunks whose stored vector has the
query's dimensionality: chunks whose `cosineSimilarity` throws (the
dimension mismatch) are skipped by the `catch`, so the loop behaves as if
they were filtered out beforehand. -/
theorem computeSimilarities_filter_dims (qv : List ℝ) (minSim : ℝ)
    (cs : List EmbeddedChunk) (hq : qv ≠ []) :
    computeSimilarities qv minSim cs =
      computeSimilarities qv minSim
        (cs.filter (fun c => c.embedding.values.length == qv.length)) := by
  induction cs with
  | nil => rfl
  | cons c rest ih =>
    by_cases hdim : c.embedding.values.length = qv.length
    · rw [List.filter_cons_of_pos (by simpa using hdim)]
      simp only [computeSimilarities, cosineSimilarity_eq_ok qv _ hq hdim]
      by_cases hmin : minSim ≤ cosValue qv c.embedding.values
      · simp [hmin, ih]
      · simp [hmin, ih]
    · rw [List.filter_cons_of_neg (by simpa using hdim)]
      have herr := cosineSimilarity_mismatch qv c.embedding.values
        (fun he => hdim he.symm)
      simp only [computeSimilarities, herr]
      exact ih

/-- A stored chunk whose vector has the wrong dimensionality (1, not 2). -/
def mismatchedChunk : EmbeddedChunk := mkChunk "bad" "doc.md" [1] 0

/-- A stored chunk whose vector matches the query dimensionality. -/
def matchingChunk : EmbeddedChunk := mkChunk "good" "doc.md" [3, 4] 0

/-- C2 counterexample: with one stored chunk of mismatching dimensionality
and one matching chunk, the query does NOT fail as a whole — it succeeds and
returns the result computed from the remaining (matching) chunk. -/
theorem dimension_mismatch_query_succeeds :
    findSimilarChunks [3, 4] [mismatchedChunk, matchingChunk] 5 0 =
      .ok [{ chunk := matchingChunk, similarity_score := 1, rank := 1 }] := by
  have hq : ([3, 4] : List ℝ) ≠ [] := by simp
  have herr : cosineSimilarity [3, 4] mismatchedChunk.embedding.values =
      .error "Vectors must have the same dimensions" :=
    cosineSimilarity_mismatch _ _ (by simp [mismatchedChunk, mkChunk])
  have hok : cosineSimilarity [3, 4] matchingChunk.embedding.values =
      .ok 1 := by
    refine cosineSimilarity_eval _ _ 5 5 1 hq (by simp [matchingChunk, mkChunk])
      ?_ ?_ (by norm_num) (by norm_num) ?_
    · simp [sumOfSquares]
      norm_num
    · simp [matchingChunk, mkChunk, sumOfSquares]
      norm_num
    · simp [matchingChunk, mkChunk, dotProduct]
      norm_num
  simp only [findSimilarChunks]
  rw [if_neg (by simp), if_neg (by simp), if_neg (by norm_num)]
  simp only [computeSimilarities, herr, hok]
  rw [if_pos (by norm_num : (0 : ℝ) ≤ 1)]
  simp [sortDescBy, insertDescBy, setRanks, setRanksFrom]

/-- C2 as amended: a stored chunk whose dimensionality differs from the
query's is skipped (its thrown error is caught and logged), and the query
returns the results computed from the remaining chunks — for positive `topK`
the outcome is identical to running the search on the candidate list with
the mismatching chunks removed. -/
theorem findSimilarChunks_skips_mismatched (qv : List ℝ)
    (cs : List EmbeddedChunk) (k : ℤ) (minSim : ℝ)
    (hq : qv ≠ []) (hk : 0 < k) :
    findSimilarChunks qv cs k minSim =
      findSimilarChunks qv
        (cs.filter (fun c => c.embedding.values.length == qv.length))
        k minSim := by
  have hq0 : ¬ (qv.length = 0) := by simpa [List.length_eq_zero] using hq
  have hk' : ¬ (k ≤ 0) := not_le.mpr hk
  by_cases hcs : cs = []
  · subst hcs
    rfl
  · have hcs0 : ¬ (cs.length = 0) := by simpa [List.length_eq_zero] using hcs
    by_cases hf : cs.filter (fun c => c.embedding.values.length == qv.length) = []
    · simp only [findSimilarChunks, if_neg hq0, if_neg hcs0, if_neg hk', hf]
      rw [computeSimilarities_filter_dims qv minSim cs hq, hf]
      simp [computeSimilarities, sortDescBy, setRanks, setRanksFrom]
    · have hf0 : ¬ ((cs.filter
          (fun c => c.embedding.values.length == qv.length)).length = 0) := by
        simpa [List.length_eq_zero] using hf
      simp only [findSimilarChunks, if_neg hq0, if_neg hcs0, if_neg hk',
        if_neg hf0]
      rw [computeSimilarities_filter_dims qv minSim cs hq]

/-- Witness for the amended C2 at the counterexample's input. -/
theorem findSimilarChunks_skips_mismatched_witness :
    findSimilarChunks [3, 4] [mismatchedChunk, matchingChunk] 5 0 =
      findSimilarChunks [3, 4] [matchingChunk] 5 0 := by
  have h := findSimilarChunks_skips_mismatched [3, 4]
    [mismatchedChunk, matchingChunk] 5 0 (by simp) (by norm_num)
  rw [h]
  norm_num [mismatchedChunk, matchingChunk, mkChunk]

/- ============================================================
   C3: plugin timeouts and their error code
   ============================================================ -/

/-- A plugin whose `execute` is still pending when the timeout fires. -/
def timeoutPlugin : PluginM :=
  { name := "weather", version := "1.0.0", priority := 2, enabled := true,
    shouldActivateRes := .ok true, execBehavior := .timesOut }

/-- A plugin whose `execute` rejects on its own before the timeout. -/
def throwingPlugin : PluginM :=
  { name := "math", version := "1.0.0", priority := 3, enabled := true,
    shouldActivateRes := .ok true, execBehavior := .throwsErr "boom" }

/-- C3 counterexample: the failure result recorded for a timed-out plugin
carries the error code "EXECUTION_ERROR" — exactly the code recorded for an
ordinary execution failure.  The code is not timeout-specific: the timeout
is distinguishable only in the log, not in the result. -/
theorem timeout_error_code_not_distinct :
    ((executePluginsSequential 30000 [timeoutPlugin]).map
        (fun r => r.2.error.map PluginError.code)) =
      [some "EXECUTION_ERROR"] ∧
    ((executePluginsSequential 30000 [throwingPlugin]).map
        (fun r => r.2.error.map PluginError.code)) =
      [some "EXECUTION_ERROR"] := by
  constructor
  · rfl
  · rfl

/-- C3 as amended: a plugin whose execution exceeds the timeout yields a
failure result whose error code is "EXECUTION_ERROR" (the same code ordinary
execution failures get — not a distinct timeout-specific one), and the
dispatch still returns one result per dispatched plugin rather than hanging
or raising. -/
theorem executePluginsSequential_timeout (timeoutMs : ℕ)
    (plugins : List PluginM) :
    (executePluginsSequential timeoutMs plugins).length = plugins.length ∧
    (∀ i : ℕ, ∀ p : PluginM, plugins[i]? = some p →
      p.execBehavior = ExecBehavior.timesOut →
      (executePluginsSequential timeoutMs plugins)[i]? =
        some (p.name, executionFailureResult p) ∧
      (executionFailureResult p).success = false ∧
      (executionFailureResult p).error =
        some { code := "EXECUTION_ERROR",
               message := "Plugin execution failed" }) := by
  constructor
  · simp [executePluginsSequential]
  · intro i p hp hto
    refine ⟨?_, rfl, rfl⟩
    rw [executePluginsSequential, List.getElem?_map, hp]
    simp [raceWithTimeout, hto]

/-- Witness for the amended C3 with one timed-out plugin. -/
theorem executePluginsSequential_timeout_witness :
    (executePluginsSequential 30000 [timeoutPlugin]).length = 1 ∧
    (executePluginsSequential 30000 [timeoutPlugin])[0]? =
      some ("weather", executionFailureResult timeoutPlugin) := by
  have h := executePluginsSequential_timeout 30000 [timeoutPlugin]
  exact ⟨h.1, (h.2 0 timeoutPlugin rfl rfl).1⟩

/- ============================================================
   C9: plugin selection
   ============================================================ -/

/-- The predicate the activation loop keeps a plugin under: it is enabled
and its `shouldActivate` returned `true` (neither `false` nor a throw). -/
def activationKeeps (p : PluginM) : Bool :=
  p.enabled &&
    (match p.shouldActivateRes with
     | .ok true => true
     | .ok false => false
     | .error _ => false)

theorem activationLoop_eq_filter (plugins : List PluginM) :
    activationLoop plugins = plugins.filter activationKeeps := by
  induction plugins with
  | nil => rfl
  | cons p ps ih =>
    cases he : p.enabled with
    | false => simp [activationLoop, List.filter_cons, activationKeeps, he, ih]
    | true =>
      cases hres : p.shouldActivateRes with
      | ok b =>
        cases b <;>
          simp [activationLoop, List.filter_cons, activationKeeps, he, hres, ih]
      | error e =>
        simp [activationLoop, List.filter_cons, activationKeeps, he, hres, ih]

/-- C9: the dispatcher selects exactly the enabled plugins whose activation
predicate returns `true`, orders them by descending priority with ties in
registration order (the sort is stable: each priority class keeps its
original order), and passes on at most `max_plugins_per_request` of them. -/
theorem findActivatedPlugins_spec (maxPluginsPerRequest : ℕ)
    (plugins : List PluginM) :
    ∃ ordered : List PluginM,
      findActivatedPlugins maxPluginsPerRequest plugins =
        ordered.take maxPluginsPerRequest ∧
      ordered.Perm (plugins.filter activationKeeps) ∧
      ordered.Pairwise (fun a b => b.priority ≤ a.priority) ∧
      (∀ pr : ℤ, ordered.filter (fun p => p.priority = pr) =
        (plugins.filter activationKeeps).filter (fun p => p.priority = pr)) ∧
      (findActivatedPlugins maxPluginsPerRequest plugins).length ≤
        maxPluginsPerRequest := by
  refine ⟨sortDescBy (fun p : PluginM => p.priority) (activationLoop plugins),
    rfl, ?_, ?_, ?_, ?_⟩
  · rw [activationLoop_eq_filter]
    exact sortDescBy_perm _ _
  · exact sortDescBy_pairwise _ _
  · intro pr
    rw [activationLoop_eq_filter]
    exact filter_sortDescBy (fun p : PluginM => p.priority) _ pr
  · exact List.length_take_le _ _

/- ============================================================
   C8: best-effort cache loading
   ============================================================ -/

/-- C8: on startup load, a missing cache file leaves the corresponding
collection empty (the fresh state's empty collection is kept), a malformed
one degrades to the empty collection with a logged warning, and in every
case the load completes and `initialize()` reaches
`isInitialized = true` — no disk state aborts startup. -/
theorem loadExistingData_best_effort (disk : DiskCache) :
    (disk.chunksFile = CacheFile.missing →
      (loadExistingData disk freshRAGState).state.embeddedChunks = []) ∧
    (disk.chunksFile = CacheFile.malformed →
      (loadExistingData disk freshRAGState).state.embeddedChunks = [] ∧
      "Failed to load cached chunks" ∈
        (loadExistingData disk freshRAGState).warnings) ∧
    (disk.documentsFile = CacheFile.missing →
      (loadExistingData disk freshRAGState).state.documentsIndex = []) ∧
    (disk.documentsFile = CacheFile.malformed →
      (loadExistingData disk freshRAGState).state.documentsIndex = [] ∧
      "Failed to load cached documents" ∈
        (loadExistingData disk freshRAGState).warnings) ∧
    (initService disk).isInitDone = true := by
  refine ⟨?_, ?_, ?_, ?_, rfl⟩
  · intro h
    simp [loadExistingData, freshRAGState, h]
  · intro h
    simp [loadExistingData, freshRAGState, h]
  · intro h
    simp [loadExistingData, freshRAGState, h]
  · intro h
    simp [loadExistingData, freshRAGState, h]

/-- Witness for C8: malformed chunks file together with a missing documents
file — warning logged, empty index, startup completes. -/
theorem loadExistingData_best_effort_witness :
    (loadExistingData
        { chunksFile := .malformed, documentsFile := .missing }
        freshRAGState).state.embeddedChunks = [] ∧
    "Failed to load cached chunks" ∈
      (loadExistingData
        { chunksFile := .malformed, documentsFile := .missing }
        freshRAGState).warnings ∧
    (loadExistingData
        { chunksFile := .malformed, documentsFile := .missing }
        freshRAGState).state.documentsIndex = [] ∧
    (initService
        { chunksFile := .malformed, documentsFile := .missing }).isInitDone
      = true := by
  have h := loadExistingData_best_effort
    { chunksFile := .malformed, documentsFile := .missing }
  exact ⟨(h.2.1 rfl).1, (h.2.1 rfl).2, h.2.2.1 rfl, h.2.2.2.2⟩

/- ============================================================
   C4: full characterisation of the top-K search
   ============================================================ -/

/-- Spec-side description of what the similarity loop keeps: the candidates
whose cosine similarity is at least `minSimilarity` (inclusive bound), in
original candidate order, paired with their scores (rank not yet set). -/
noncomputable def keptResults (qv : List ℝ) (minSim : ℝ)
    (cs : List EmbeddedChunk) : List SimilarityResult :=
  (cs.filter (fun c => decide (minSim ≤ cosValue qv c.embedding.values))).map
    (fun c =>
      { chunk := c, similarity_score := cosValue qv c.embedding.values,
        rank := 0 })

/-- Under matching dimensionalities (no chunk throws), the similarity loop
computes exactly the kept candidates in order. -/
theorem computeSimilarities_eq (qv : List ℝ) (minSim : ℝ)
    (cs : List EmbeddedChunk) (hq : qv ≠ [])
    (hdim : ∀ c ∈ cs, c.embedding.values.length = qv.length) :
    computeSimilarities qv minSim cs = keptResults qv minSim cs := by
  induction cs with
  | nil => rfl
  | cons c rest ih =>
    have hc := hdim c (List.mem_cons_self c rest)
    have hrest : ∀ x ∈ rest, x.embedding.values.length = qv.length :=
      fun x hx => hdim x (List.mem_cons_of_mem c hx)
    simp only [computeSimilarities, cosineSimilarity_eq_ok qv _ hq hc,
      keptResults, List.filter_cons]
    by_cases hmin : minSim ≤ cosValue qv c.embedding.values
    · simpa [hmin] using ih hrest
    · simpa [hmin] using ih hrest

theorem setRanksFrom_length (i : ℕ) (l : List SimilarityResult) :
    (setRanksFrom i l).length = l.length := by
  induction l generalizing i with
  | nil => rfl
  | cons r rs ih => simp [setRanksFrom, ih]

theorem setRanksFrom_getElem (i j : ℕ) (l : List SimilarityResult) :
    (setRanksFrom i l)[j]? =
      (l[j]?).map (fun r => { r with rank := i + j + 1 }) := by
  induction l generalizing i j with
  | nil => simp [setRanksFrom]
  | cons r rs ih =>
    cases j with
    | zero => simp [setRanksFrom]
    | succ j' =>
      simp only [setRanksFrom, List.getElem?_cons_succ, ih]
      have : i + 1 + j' + 1 = i + (j' + 1) + 1 := by omega
      rw [this]

theorem setRanksFrom_map (i : ℕ) (l : List SimilarityResult) :
    (setRanksFrom i l).map (fun r => (r.chunk, r.similarity_score)) =
      l.map (fun r => (r.chunk, r.similarity_score)) := by
  induction l generalizing i with
  | nil => rfl
  | cons r rs ih => simp [setRanksFrom, ih]

/-- C4: for a non-empty query and matching dimensionalities the search, on a
non-empty candidate list with `k > 0`, returns exactly the candidates whose
cosine similarity is `≥ min_score` (inclusive), in descending score order
with ties in original candidate order (stable: every score class keeps its
input order), truncated to at most `k`, ranks `1, 2, …` assigned in output
order; `k ≤ 0` on a non-empty list is an error; an empty candidate list
yields an empty result, not an error. -/
theorem findSimilarChunks_spec (qv : List ℝ) (cs : List EmbeddedChunk)
    (k : ℤ) (minSim : ℝ) (hq : qv ≠ [])
    (hdim : ∀ c ∈ cs, c.embedding.values.length = qv.length) :
    (cs ≠ [] → 0 < k →
      ∃ sorted : List SimilarityResult,
        sorted.Perm (keptResults qv minSim cs) ∧
        sorted.Pairwise
          (fun a b => b.similarity_score ≤ a.similarity_score) ∧
        (∀ s : ℝ, sorted.filter (fun r => r.similarity_score = s) =
          (keptResults qv minSim cs).filter
            (fun r => r.similarity_score = s)) ∧
        findSimilarChunks qv cs k minSim =
          .ok (setRanks (sorted.take k.toNat)) ∧
        (setRanks (sorted.take k.toNat)).length =
          min k.toNat (keptResults qv minSim cs).length ∧
        ((setRanks (sorted.take k.toNat)).map
            (fun r => (r.chunk, r.similarity_score)) =
          (sorted.take k.toNat).map
            (fun r => (r.chunk, r.similarity_score))) ∧
        (∀ j : ℕ, ∀ r : SimilarityResult,
          (setRanks (sorted.take k.toNat))[j]? = some r → r.rank = j + 1)) ∧
    (cs ≠ [] → k ≤ 0 →
      findSimilarChunks qv cs k minSim =
        .error "topK must be greater than 0") ∧
    (cs = [] → findSimilarChunks qv cs k minSim = .ok []) := by
  have hq0 : ¬ (qv.length = 0) := by simpa [List.length_eq_zero] using hq
  refine ⟨?_, ?_, ?_⟩
  · intro hcs hk
    have hcs0 : ¬ (cs.length = 0) := by simpa [List.length_eq_zero] using hcs
    have hk' : ¬ (k ≤ 0) := not_le.mpr hk
    refine ⟨sortDescBy (fun r : SimilarityResult => r.similarity_score)
      (keptResults qv minSim cs), ?_, ?_, ?_, ?_, ?_, ?_, ?_⟩
    · exact sortDescBy_perm _ _
    · exact sortDescBy_pairwise _ _
    · intro s
      exact filter_sortDescBy
        (fun r : SimilarityResult => r.similarity_score) _ s
    · simp only [findSimilarChunks, if_neg hq0, if_neg hcs0, if_neg hk']
      rw [computeSimilarities_eq qv minSim cs hq hdim]
    · rw [setRanks, setRanksFrom_length, List.length_take,
        (sortDescBy_perm (fun r : SimilarityResult => r.similarity_score)
          (keptResults qv minSim cs)).length_eq]
    · exact setRanksFrom_map 0 _
    · intro j r hr
      rw [setRanks, setRanksFrom_getElem] at hr
      cases htake : ((sortDescBy (fun r : SimilarityResult =>
          r.similarity_score) (keptResults qv minSim cs)).take k.toNat)[j]? with
      | none => rw [htake] at hr; simp at hr
      | some r0 =>
        rw [htake] at hr
        have hr' : { r0 with rank := 0 + j + 1 } = r := by
          simpa using hr
        rw [← hr']
        show 0 + j + 1 = j + 1
        omega
  · intro hcs hk
    have hcs0 : ¬ (cs.length = 0) := by simpa [List.length_eq_zero] using hcs
    simp [findSimilarChunks, hq0, hcs0, hk]
  · intro hcs
    subst hcs
    simp [findSimilarChunks, hq0]

def dA : EmbeddedChunk := mkChunk "dA" "a.md" [3, 4] 0
def dB : EmbeddedChunk := mkChunk "dB" "a.md" [1, 0] 0
def dC : EmbeddedChunk := mkChunk "dC" "a.md" [0, 1] 0

/-- Witness for C4 on three concrete candidates with `k = 2`. -/
theorem findSimilarChunks_spec_witness :
    ∃ sorted : List SimilarityResult,
      findSimilarChunks [1, 0] [dA, dB, dC] 2 0 =
        .ok (setRanks (sorted.take (2 : ℤ).toNat)) ∧
      sorted.Perm (keptResults [1, 0] 0 [dA, dB, dC]) := by
  obtain ⟨sorted, hperm, _, _, heq, _⟩ :=
    (findSimilarChunks_spec [1, 0] [dA, dB, dC] 2 0 (by simp)
      (by intro c hc
          fin_cases hc <;> simp [dA, dB, dC, mkChunk])).1
      (by simp) (by norm_num)
  exact ⟨sorted, heq, hperm⟩

/- ============================================================
   C6: filters are applied to the ranked top-k list
   ============================================================ -/

/-- C6: `retrieveContent` applies the post-filters to the already-ranked
top-k result list, not to the full corpus: the returned list is exactly the
filter of the ranked list (a sublist of it), so every returned result comes
from the initial top-k cut. -/
theorem retrieveContent_filters_after_ranking (configMinScore : ℝ)
    (st : RAGState) (qe : List ℝ) (top_k : ℤ) (minScoreOpt : Option ℝ)
    (filters : SearchFilters) (ranked : List SimilarityResult)
    (hinit : st.isInitDone = true) (hqe : qe ≠ [])
    (hranked : findSimilarChunks qe st.embeddedChunks top_k
      (jsOrReal minScoreOpt configMinScore) = .ok ranked) :
    retrieveContent configMinScore st (.ok [qe]) top_k minScoreOpt
        (some filters) =
      .ok (ranked.filter (passesFilters filters)) ∧
    (ranked.filter (passesFilters filters)).Sublist ranked ∧
    (∀ r ∈ ranked.filter (passesFilters filters), r ∈ ranked) := by
  have hval : validateVector qe = .ok () := by
    have : ¬ (qe.length = 0) := by simpa [List.length_eq_zero] using hqe
    simp [validateVector, this]
  refine ⟨?_, List.filter_sublist _, fun r hr => List.mem_of_mem_filter hr⟩
  rw [retrieveContent, hinit]
  simp only [Bool.true_eq_false, if_false]
  show (match validateVector qe with
    | .error e => Except.error e
    | .ok _ =>
      match findSimilarChunks qe st.embeddedChunks top_k
          (jsOrReal minScoreOpt configMinScore) with
      | .error e => Except.error e
      | .ok similarChunks =>
        .ok (applyFilters similarChunks (some filters))) = _
  rw [hval, hranked]
  rfl

/-- The underlying corpus of the C6 scenario: five chunks of `other.md`
ranking above one `keep.md` chunk, plus a second `keep.md` chunk that ranks
below the top-5 cut. -/
def fB : EmbeddedChunk := mkChunk "fB" "other.md" [1, 0] 0
def fC : EmbeddedChunk := mkChunk "fC" "other.md" [24, 7] 0
def fD : EmbeddedChunk := mkChunk "fD" "other.md" [12, 5] 0
def fE : EmbeddedChunk := mkChunk "fE" "other.md" [4, 3] 0
def fA : EmbeddedChunk := mkChunk "fA" "keep.md" [3, 4] 0
def fF : EmbeddedChunk := mkChunk "fF" "keep.md" [7, 24] 0

def demoState : RAGState :=
  { embeddedChunks := [fB, fC, fD, fE, fA, fF], documentsIndex := [],
    isInitDone := true }

def keepFilter : SearchFilters :=
  { filenames := some ["keep.md"], sections := none, date_range := none }

/-- Concrete evaluation of the ranked top-5 for query `[1, 0]` over the
six-chunk corpus: `fF` (score 7/25) is cut by `slice(0, 5)`. -/
theorem demo_ranked_eval :
    findSimilarChunks [1, 0] [fB, fC, fD, fE, fA, fF] 5 (1 / 10) =
      .ok [⟨fB, 1, 1⟩, ⟨fC, 24 / 25, 2⟩, ⟨fD, 12 / 13, 3⟩,
           ⟨fE, 4 / 5, 4⟩, ⟨fA, 3 / 5, 5⟩] := by
  have hqe : ([1, 0] : List ℝ) ≠ [] := by simp
  have hB : cosineSimilarity [1, 0] fB.embedding.values = .ok 1 := by
    refine cosineSimilarity_eval _ _ 1 1 1 hqe (by simp [fB, mkChunk]) ?_ ?_
      (by norm_num) (by norm_num) ?_
    · norm_num [sumOfSquares]
    · norm_num [fB, mkChunk, sumOfSquares]
    · norm_num [fB, mkChunk, dotProduct]
  have hC : cosineSimilarity [1, 0] fC.embedding.values = .ok (24 / 25) := by
    refine cosineSimilarity_eval _ _ 1 25 (24 / 25) hqe (by simp [fC, mkChunk])
      ?_ ?_ (by norm_num) (by norm_num) ?_
    · norm_num [sumOfSquares]
    · norm_num [fC, mkChunk, sumOfSquares]
    · norm_num [fC, mkChunk, dotProduct]
  have hD : cosineSimilarity [1, 0] fD.embedding.values = .ok (12 / 13) := by
    refine cosineSimilarity_eval _ _ 1 13 (12 / 13) hqe (by simp [fD, mkChunk])
      ?_ ?_ (by norm_num) (by norm_num) ?_
    · norm_num [sumOfSquares]
    · norm_num [fD, mkChunk, sumOfSquares]
    · norm_num [fD, mkChunk, dotProduct]
  have hE : cosineSimilarity [1, 0] fE.embedding.values = .ok (4 / 5) := by
    refine cosineSimilarity_eval _ _ 1 5 (4 / 5) hqe (by simp [fE, mkChunk])
      ?_ ?_ (by norm_num) (by norm_num) ?_
    · norm_num [sumOfSquares]
    · norm_num [fE, mkChunk, sumOfSquares]
    · norm_num [fE, mkChunk, dotProduct]
  have hA : cosineSimilarity [1, 0] fA.embedding.values = .ok (3 / 5) := by
    refine cosineSimilarity_eval _ _ 1 5 (3 / 5) hqe (by simp [fA, mkChunk])
      ?_ ?_ (by norm_num) (by norm_num) ?_
    · norm_num [sumOfSquares]
    · norm_num [fA, mkChunk, sumOfSquares]
    · norm_num [fA, mkChunk, dotProduct]
  have hF : cosineSimilarity [1, 0] fF.embedding.values = .ok (7 / 25) := by
    refine cosineSimilarity_eval _ _ 1 25 (7 / 25) hqe (by simp [fF, mkChunk])
      ?_ ?_ (by norm_num) (by norm_num) ?_
    · norm_num [sumOfSquares]
    · norm_num [fF, mkChunk, sumOfSquares]
    · norm_num [fF, mkChunk, dotProduct]
  rw [findSimilarChunks]
  rw [if_neg (by simp), if_neg (by simp), if_neg (by norm_num)]
  simp only [computeSimilarities, hB, hC, hD, hE, hA, hF]
  rw [if_pos (by norm_num : (1 / 10 : ℝ) ≤ 1),
    if_pos (by norm_num : (1 / 10 : ℝ) ≤ 24 / 25),
    if_pos (by norm_num : (1 / 10 : ℝ) ≤ 12 / 13),
    if_pos (by norm_num : (1 / 10 : ℝ) ≤ 4 / 5),
    if_pos (by norm_num : (1 / 10 : ℝ) ≤ 3 / 5),
    if_pos (by norm_num : (1 / 10 : ℝ) ≤ 7 / 25)]
  norm_num [sortDescBy, insertDescBy, setRanks, setRanksFrom]

/-- Witness for C6, the spec's scenario: `top_k = 5` with a filename filter
matching 1 of the underlying top-5 chunks returns exactly 1 result, although
`fF` outside the initial top-5 would also satisfy the filter. -/
theorem retrieveContent_filters_witness :
    retrieveContent (3 / 10) demoState (.ok [[1, 0]]) 5 (some (1 / 10))
        (some keepFilter) = .ok [⟨fA, 3 / 5, 5⟩] ∧
    passesFilters keepFilter ⟨fF, 7 / 25, 0⟩ = true := by
  have hjs : jsOrReal (some (1 / 10)) (3 / 10) = 1 / 10 := by
    rw [jsOrReal, if_neg (by norm_num : ¬ ((1 / 10 : ℝ) = 0))]
  have hranked : findSimilarChunks [1, 0] demoState.embeddedChunks 5
      (jsOrReal (some (1 / 10)) (3 / 10)) =
      .ok [⟨fB, 1, 1⟩, ⟨fC, 24 / 25, 2⟩, ⟨fD, 12 / 13, 3⟩,
           ⟨fE, 4 / 5, 4⟩, ⟨fA, 3 / 5, 5⟩] := by
    rw [hjs]
    exact demo_ranked_eval
  have h := retrieveContent_filters_after_ranking (3 / 10) demoState [1, 0] 5
    (some (1 / 10)) keepFilter _ rfl (by simp) hranked
  refine ⟨?_, rfl⟩
  rw [h.1]
  rfl

/- ============================================================
   C7: session compaction
   ============================================================ -/

/-- The `ConversationMessage` built by `addMessage` from one batch entry
`(id, role, content, timestamp)`. -/
def mkMsg (m : String × Role × String × ℤ) : ConversationMessage :=
  { id := m.1, role := m.2.1, content := m.2.2.1, timestamp := m.2.2.2 }

/-- An `addMessage` on a (singleton-map) session that stays within the
ceiling: the message is appended and no compaction happens. -/
theorem addMessage_no_compact (cfg : MemoryServiceConfig) (sid : String)
    (m : String × Role × String × ℤ) (msgs : List ConversationMessage)
    (ca ua : ℤ) (sums : List (String × ConversationSummary))
    (hlen : msgs.length + 1 ≤ cfg.maxMessagesPerSession) :
    addMessage cfg ⟨[(sid, ⟨msgs, ca, ua⟩)], sums⟩ sid m.1 m.2.1 m.2.2.1
        m.2.2.2 =
      (⟨[(sid, ⟨msgs ++ [mkMsg m], ca, m.2.2.2⟩)], sums⟩, false) := by
  have hnot : ¬ (cfg.maxMessagesPerSession < msgs.length + 1) :=
    not_lt.mpr hlen
  simp [addMessage, manageSessionSize, mapGet, mapSet, mkMsg, hnot]

/-- The first `addMessage` on an empty memory creates the session; with a
ceiling of at least 1 it does not compact. -/
theorem addMessage_fresh (cfg : MemoryServiceConfig) (sid : String)
    (m : String × Role × String × ℤ)
    (hmax : 1 ≤ cfg.maxMessagesPerSession) :
    addMessage cfg ⟨[], []⟩ sid m.1 m.2.1 m.2.2.1 m.2.2.2 =
      (⟨[(sid, ⟨[mkMsg m], m.2.2.2, m.2.2.2⟩)], []⟩, false) := by
  have hnot : ¬ (cfg.maxMessagesPerSession < 1) := not_lt.mpr hmax
  simp [addMessage, manageSessionSize, mapGet, mapSet, mkMsg, hnot]

/-- A whole batch of adds that stays within the ceiling: all messages are
appended in order and no call compacts. -/
theorem addMessages_no_compact (cfg : MemoryServiceConfig) (sid : String)
    (batch : List (String × Role × String × ℤ))
    (msgs : List ConversationMessage) (ca ua : ℤ)
    (sums : List (String × ConversationSummary))
    (hlen : msgs.length + batch.length ≤ cfg.maxMessagesPerSession) :
    ∃ ua' : ℤ,
      addMessages cfg ⟨[(sid, ⟨msgs, ca, ua⟩)], sums⟩ sid batch =
        (⟨[(sid, ⟨msgs ++ batch.map mkMsg, ca, ua'⟩)], sums⟩, 0) := by
  induction batch generalizing msgs ua with
  | nil => exact ⟨ua, by simp [addMessages]⟩
  | cons m rest ih =>
    have hstep := addMessage_no_compact cfg sid m msgs ca ua sums
      (by simp at hlen; omega)
    obtain ⟨ua', hrest⟩ := ih (msgs ++ [mkMsg m]) m.2.2.2
      (by simp at hlen ⊢; omega)
    refine ⟨ua', ?_⟩
    simp only [addMessages, hstep, hrest]
    simp

/-- The `addMessage` that pushes the count past the ceiling: the compaction
branch runs once — the summary record is written and only the newest
`summaryThreshold` messages survive. -/
theorem addMessage_compact (cfg : MemoryServiceConfig) (sid : String)
    (m : String × Role × String × ℤ) (msgs : List ConversationMessage)
    (ca ua : ℤ)
    (hover : cfg.maxMessagesPerSession < msgs.length + 1) :
    ∃ summ : ConversationSummary,
      addMessage cfg ⟨[(sid, ⟨msgs, ca, ua⟩)], []⟩ sid m.1 m.2.1 m.2.2.1
          m.2.2.2 =
        (⟨[(sid, ⟨sliceFromNeg (msgs ++ [mkMsg m]) cfg.summaryThreshold,
              ca, m.2.2.2⟩)],
          [(sid, summ)]⟩, true) := by
  refine ⟨?_, ?_⟩
  · exact
      { session_id := sid
        summary := createSimpleSummary
          (sliceToNeg (msgs ++ [mkMsg m]) cfg.summaryThreshold)
        message_count := (msgs ++ [mkMsg m]).length
        topics := extractTopics
          (sliceToNeg (msgs ++ [mkMsg m]) cfg.summaryThreshold)
        last_message_at := m.2.2.2 }
  · have hpos : cfg.maxMessagesPerSession < (msgs ++ [mkMsg m]).length := by
      simp
      omega
    simp [addMessage, manageSessionSize, updateSessionSummary, mapGet,
      mapSet, mkMsg, hpos]
    exact hover

theorem addMessages_append_one (cfg : MemoryServiceConfig) (sid : String)
    (mem : MemoryState) (xs : List (String × Role × String × ℤ))
    (y : String × Role × String × ℤ) :
    addMessages cfg mem sid (xs ++ [y]) =
      ((addMessage cfg (addMessages cfg mem sid xs).1 sid y.1 y.2.1 y.2.2.1
          y.2.2.2).1,
       (addMessages cfg mem sid xs).2 +
         (if (addMessage cfg (addMessages cfg mem sid xs).1 sid y.1 y.2.1
            y.2.2.1 y.2.2.2).2 then 1 else 0)) := by
  induction xs generalizing mem with
  | nil => simp [addMessages]
  | cons x rest ih =>
    simp only [List.cons_append, addMessages, List.append_eq]
    rw [ih]
    simp [Nat.add_assoc]

/-- C7: starting from an empty store and adding `max_messages_per_session + 1`
messages to one session triggers exactly one compaction (in the final add),
after which the session's live message count equals `summary_threshold`, a
summary record for the session exists, and the live list is exactly the
newest `summary_threshold` messages — the older ones are gone from it. -/
theorem session_compaction (cfg : MemoryServiceConfig) (sid : String)
    (batch : List (String × Role × String × ℤ))
    (hthr : 0 < cfg.summaryThreshold)
    (hle : cfg.summaryThreshold ≤ cfg.maxMessagesPerSession)
    (hlen : batch.length = cfg.maxMessagesPerSession + 1) :
    (addMessages cfg ⟨[], []⟩ sid batch).2 = 1 ∧
    (∃ session : SessionState,
      mapGet (addMessages cfg ⟨[], []⟩ sid batch).1.sessions sid =
        some session ∧
      session.messages.length = cfg.summaryThreshold ∧
      session.messages.map (fun msg => msg.id) =
        (batch.drop (batch.length - cfg.summaryThreshold)).map
          (fun m => m.1)) ∧
    (∃ summ : ConversationSummary,
      mapGet (addMessages cfg ⟨[], []⟩ sid batch).1.sessionSummaries sid =
        some summ) := by
  have hmax1 : 1 ≤ cfg.maxMessagesPerSession := le_trans hthr hle
  -- split the batch into the `max` leading adds and the final, compacting one
  rcases List.eq_nil_or_concat batch with hnil | ⟨front, blast, hsplit⟩
  · rw [hnil] at hlen
    simp at hlen
  rw [List.concat_eq_append] at hsplit
  subst hsplit
  have hfront : front.length = cfg.maxMessagesPerSession := by
    simp at hlen
    omega
  -- the leading adds never compact
  rcases front with _ | ⟨f0, frest⟩
  · simp at hfront
    omega
  have hfresh := addMessage_fresh cfg sid f0 hmax1
  obtain ⟨ua', hrest⟩ := addMessages_no_compact cfg sid frest
    [mkMsg f0] f0.2.2.2 f0.2.2.2 []
    (by simp at hfront ⊢; omega)
  have hfrontRun :
      addMessages cfg ⟨[], []⟩ sid (f0 :: frest) =
        (⟨[(sid, ⟨(f0 :: frest).map mkMsg, f0.2.2.2, ua'⟩)], []⟩, 0) := by
    simp only [addMessages, hfresh, hrest]
    simp
  -- the final add compacts
  have hoverflow :
      cfg.maxMessagesPerSession < ((f0 :: frest).map mkMsg).length + 1 := by
    simp
    simp at hfront
    omega
  obtain ⟨summ, hlast⟩ := addMessage_compact cfg sid blast
    ((f0 :: frest).map mkMsg) f0.2.2.2 ua' hoverflow
  have hrun := addMessages_append_one cfg sid ⟨[], []⟩ (f0 :: frest) blast
  rw [hfrontRun] at hrun
  simp only [hlast] at hrun
  -- identify the trimmed message list
  have hmapsum : ((f0 :: frest).map mkMsg) ++ [mkMsg blast] =
      ((f0 :: frest) ++ [blast]).map mkMsg := by
    simp
  have hthr0 : cfg.summaryThreshold ≠ 0 := Nat.pos_iff_ne_zero.mp hthr
  have hlenAll : (((f0 :: frest) ++ [blast]).map mkMsg).length =
      cfg.maxMessagesPerSession + 1 := by
    simpa using hlen
  have hslice : sliceFromNeg (((f0 :: frest) ++ [blast]).map mkMsg)
      cfg.summaryThreshold =
      (((f0 :: frest) ++ [blast]).map mkMsg).drop
        (((f0 :: frest) ++ [blast]).length - cfg.summaryThreshold) := by
    rw [sliceFromNeg, if_neg hthr0]
    simp
  refine ⟨?_, ⟨?_, ?_, ?_, ?_⟩, ⟨summ, ?_⟩⟩
  · rw [hrun]
    simp
  · exact ⟨sliceFromNeg (((f0 :: frest) ++ [blast]).map mkMsg)
      cfg.summaryThreshold, f0.2.2.2, blast.2.2.2⟩
  · rw [hrun, hmapsum]
    simp [mapGet]
  · rw [hslice]
    rw [List.length_drop]
    simp only [List.length_map] at hlenAll ⊢
    omega
  · rw [hslice, ← List.map_drop]
    rw [List.map_map]
    rfl
  · rw [hrun, hmapsum]
    simp [mapGet]

def demoCfg : MemoryServiceConfig :=
  { maxMessagesPerSession := 3, summaryThreshold := 2 }

def demoBatch : List (String × Role × String × ℤ) :=
  [("m1", Role.user, "hello", 1), ("m2", Role.assistant, "hi", 2),
   ("m3", Role.user, "how are things", 3), ("m4", Role.assistant, "fine", 4)]

/-- Witness for C7: ceiling 3, threshold 2, four adds — one compaction, two
live messages (`m3`, `m4`), summary present. -/
theorem session_compaction_witness :
    (addMessages demoCfg ⟨[], []⟩ "s1" demoBatch).2 = 1 ∧
    (∃ session : SessionState,
      mapGet (addMessages demoCfg ⟨[], []⟩ "s1" demoBatch).1.sessions "s1" =
        some session ∧
      session.messages.length = demoCfg.summaryThreshold ∧
      session.messages.map (fun msg => msg.id) =
        (demoBatch.drop (demoBatch.length - demoCfg.summaryThreshold)).map
          (fun m => m.1)) ∧
    (∃ summ : ConversationSummary,
      mapGet (addMessages demoCfg ⟨[], []⟩ "s1"
          demoBatch).1.sessionSummaries "s1" = some summ) :=
  session_compaction demoCfg "s1" demoBatch (by decide) (by decide)
    (by decide)

/- ============================================================
   C1: re-ingesting a filename accumulates chunks (code bug)
   ============================================================ -/

/-- A concrete ingestion environment: the chunker yields one chunk per
document and the embedder answers one 1-dimensional vector per chunk text. -/
def constChunkEnv : IngestEnv :=
  { cleanText := fun s => s
    stripMarkdown := fun s => s
    chunkText := fun _ filename =>
      [{ id := filename ++ "-chunk-0", text := "chunk text",
         startPosition := 0, chunkLen := 10, sectionLabel := none }]
    extractTitle := fun _ => none
    extractKeyTerms := fun _ _ => []
    generateEmbeddings := fun texts => .ok (texts.map (fun _ => [1])) }

/-- C1 (code bug): `processDocument` pushes the new embedded chunks without
removing the prior ones for the same filename — only the `documentsIndex`
entry is replaced.  Ingesting `doc.md` twice (1 chunk each time) leaves the
index holding 2 chunks attributed to `doc.md` (the sum, not the second
ingestion's count), while the replaced `KnowledgeDocument` record itself
claims `chunk_count = 1`. -/
theorem reingest_accumulates_chunks :
    chunkCountFor
      (processDocuments constChunkEnv 0
        [("doc.md", "first version"), ("doc.md", "second version")]
        freshRAGState) "doc.md" = 2 ∧
    (mapGet (processDocuments constChunkEnv 0
        [("doc.md", "first version"), ("doc.md", "second version")]
        freshRAGState).documentsIndex "doc.md").map
      (fun d => d.processing.chunk_count) = some 1 := by
  constructor
  · rfl
  · rfl

end AgentSpec
